import Mathlib

/-!
# FinanceLab — mindmap core (src/pages/community.tsx): shallow embedding

The mindmap state, its JSON import/export, and the user-facing operations
(delete, update, connect, center, wheel zoom, keyboard zoom, auto-arrange)
are translated from `src/pages/community.tsx`.

Modelling conventions:
* JavaScript numbers are modelled as `ℚ` (the claims are about exact
  arithmetic, not float rounding).
* The impure `Date.now()` is an explicit parameter `t` of every operation
  that calls it; the impure random `uid()` is an explicit id parameter.
* JSON text is modelled at the document level by the `Json` inductive:
  `JSON.parse` of unparseable text is the `none` case of an `Option Json`
  input, and `JSON.stringify` of a state is the structure-preserving
  `exportState : MindState → Json` (the concrete-syntax layer is a
  bijection between well-formed texts and `Json` values).
* `Math.cos`, `Math.sin`, `Math.PI` are parameters of `autoArrange`
  (the theorems hold for every interpretation, in particular the real one).
-/

namespace FinanceLab

/-- `type NodeTone = "good" | "mid" | "bad" | "none"` (community.tsx:12). -/
inductive NodeTone where
  | good
  | mid
  | bad
  | none
deriving DecidableEq, Repr

/-- `type MindNode` (community.tsx:14-23). -/
structure MindNode where
  id : String
  title : String
  body : String
  tone : NodeTone
  x : ℚ
  y : ℚ
  createdAt : ℚ
  updatedAt : ℚ
deriving DecidableEq, Repr

/-- `type MindEdge` (community.tsx:25-29); `from` is a Lean keyword, so the
field is `from_`. -/
structure MindEdge where
  id : String
  from_ : String
  to_ : String
deriving DecidableEq, Repr

/-- The `viewport` record of `MindState` (community.tsx:39). -/
structure Viewport where
  x : ℚ
  y : ℚ
  zoom : ℚ
deriving DecidableEq, Repr

/-- `type MindState` (community.tsx:31-40). -/
structure MindState where
  version : ℚ
  createdAt : ℚ
  updatedAt : ℚ
  expiresAt : ℚ
  nodes : List MindNode
  edges : List MindEdge
  selectedId : Option String
  viewport : Viewport
deriving DecidableEq, Repr

/-- `const TTL_MS = 24 * 60 * 60 * 1000` (community.tsx:43). -/
def TTL_MS : ℚ := 24 * 60 * 60 * 1000

/-- `clamp(n, min, max) = Math.max(min, Math.min(max, n))` (community.tsx:53-55). -/
def clamp (n lo hi : ℚ) : ℚ := max lo (min hi n)

/-! ## JSON documents -/

/-- A parsed JSON document (the result of a successful `JSON.parse`). -/
inductive Json where
  | null
  | bool (b : Bool)
  | num (q : ℚ)
  | str (s : String)
  | arr (xs : List Json)
  | obj (fields : List (String × Json))

/-- JavaScript property access `j[k]` on a parsed document: a lookup in an
object's field list, `undefined` (here `none`) on non-objects. -/
def getField (j : Json) (k : String) : Option Json :=
  match j with
  | .obj fs => fs.lookup k
  | _ => Option.none

/-- Numeric field access: `some q` exactly when field `k` is a JSON number. -/
def getNum (j : Json) (k : String) : Option ℚ :=
  match getField j k with
  | some (.num q) => some q
  | _ => Option.none

/-- String field access: `some s` exactly when field `k` is a JSON string. -/
def getStr (j : Json) (k : String) : Option String :=
  match getField j k with
  | some (.str s) => some s
  | _ => Option.none

/-- Numeric field access with a default. -/
def getNumD (j : Json) (k : String) (d : ℚ) : ℚ := (getNum j k).getD d

/-- String field access with a default. -/
def getStrD (j : Json) (k : String) (d : String) : String := (getStr j k).getD d

/-- JavaScript falsiness of a parsed JSON value, as tested by
`if (!parsed) return null` (community.tsx:242): `null`, `false`, `0` and
`""` are falsy; objects and arrays are truthy. -/
def jsFalsy (j : Json) : Bool :=
  match j with
  | .null => true
  | .bool b => !b
  | .num q => q == 0
  | .str s => s == ""
  | _ => false

/-- `Array.isArray` of an optional field value (community.tsx:243-244:
a missing field is `undefined`, which is not an array). -/
def isArr (j : Option Json) : Bool :=
  match j with
  | some (.arr _) => true
  | _ => false

/-! ## Export (JSON.stringify of the state, community.tsx:236-238) -/

/-- Serialization of a `NodeTone` (the string literals of the TS union). -/
def encodeTone (t : NodeTone) : Json :=
  match t with
  | .good => .str "good"
  | .mid => .str "mid"
  | .bad => .str "bad"
  | .none => .str "none"

/-- Serialization of a `MindNode`, field for field. -/
def encodeNode (n : MindNode) : Json :=
  .obj [("id", .str n.id), ("title", .str n.title), ("body", .str n.body),
        ("tone", encodeTone n.tone), ("x", .num n.x), ("y", .num n.y),
        ("createdAt", .num n.createdAt), ("updatedAt", .num n.updatedAt)]

/-- Serialization of a `MindEdge`, field for field. -/
def encodeEdge (e : MindEdge) : Json :=
  .obj [("id", .str e.id), ("from", .str e.from_), ("to", .str e.to_)]

/-- Serialization of the viewport record. -/
def encodeViewport (v : Viewport) : Json :=
  .obj [("x", .num v.x), ("y", .num v.y), ("zoom", .num v.zoom)]

/-- `exportState(state) = JSON.stringify(state, null, 2)` (community.tsx:236-238),
modelled at the document level. `JSON.stringify` omits the optional
`selectedId` key when the field is `undefined`. -/
def exportState (s : MindState) : Json :=
  .obj ([("version", .num s.version), ("createdAt", .num s.createdAt),
         ("updatedAt", .num s.updatedAt), ("expiresAt", .num s.expiresAt),
         ("nodes", .arr (s.nodes.map encodeNode)),
         ("edges", .arr (s.edges.map encodeEdge))]
        ++ (match s.selectedId with
            | Option.none => []
            | some i => [("selectedId", .str i)])
        ++ [("viewport", encodeViewport s.viewport)])

/-! ## Import (community.tsx:240-251) -/

/-- `setWithTTL` (community.tsx:96-104) at call time `t`. In the source
`createdAt = st.createdAt ?? now()`; a typed `MindState` always carries a
`createdAt`, so the nullish fallback is resolved at decode time
(see `importState`). -/
def setWithTTL (t : ℚ) (st : MindState) : MindState :=
  { st with updatedAt := t, expiresAt := st.createdAt + TTL_MS }

/-- Reading a `tone` field back from a document. Strings other than the
three tagged tones behave as the neutral tone everywhere in the source
(`toneLabel` / `toneDotStyle` fall through), so they decode to `.none`. -/
def decodeTone (j : Json) : NodeTone :=
  match j with
  | .str "good" => .good
  | .str "mid" => .mid
  | .str "bad" => .bad
  | _ => .none

/-- The dynamic cast of one element of `parsed.nodes` to a `MindNode`.
The source does no per-field validation (the parsed object is used as-is);
fields that are absent or of the wrong JSON type decode to inert defaults. -/
def decodeNode (j : Json) : MindNode :=
  { id := getStrD j "id" "", title := getStrD j "title" "",
    body := getStrD j "body" "",
    tone := decodeTone ((getField j "tone").getD .null),
    x := getNumD j "x" 0, y := getNumD j "y" 0,
    createdAt := getNumD j "createdAt" 0, updatedAt := getNumD j "updatedAt" 0 }

/-- The dynamic cast of one element of `parsed.edges` to a `MindEdge`. -/
def decodeEdge (j : Json) : MindEdge :=
  { id := getStrD j "id" "", from_ := getStrD j "from" "", to_ := getStrD j "to" "" }

/-- The dynamic cast of a `viewport` field value. -/
def decodeViewport (j : Json) : Viewport :=
  { x := getNumD j "x" 0, y := getNumD j "y" 0, zoom := getNumD j "zoom" 1 }

/-- The carried `createdAt` of an imported document as resolved by the
nullish fallback `st.createdAt ?? now()` inside `setWithTTL`
(community.tsx:97): the call time when the field is absent or `null`
(the only nullish JSON values), the carried value when it is a number.
A non-numeric, non-nullish `createdAt` (a boolean, string, array or
object) is kept by the source and later flows into `createdAt + TTL_MS`
through JavaScript implicit coercion (`true` adds as 1; a string or object
concatenates, making `expiresAt` a string); a `ℚ`-valued timestamp cannot
represent those results, so that last branch is a placeholder (the call
time) that no theorem depends on: the import-timestamp theorem asserts
`expiresAt` only for an absent, `null` or numeric carried `createdAt`, and
the other import theorems evaluate the timestamps only at documents whose
`createdAt` is absent or numeric. -/
def importCreatedAt (j : Json) (t : ℚ) : ℚ :=
  match getField j "createdAt" with
  | Option.none => t
  | some Json.null => t
  | some (.num q) => q
  | some _ => t

/-- `importState(raw)` (community.tsx:240-251) at call time `t`. The input
is `none` when `JSON.parse` throws (`safeParseJSON` returns `null`,
community.tsx:83-90). The checks are, in source order: `!parsed`,
`!parsed.nodes || !Array.isArray(parsed.nodes)`, same for `edges` (a falsy
field value is never an array, so both checks together are exactly
`Array.isArray`). On success the source builds
`setWithTTL({ ...parsed, version: 1, updatedAt: now(), viewport: parsed.viewport ?? {x:0,y:0,zoom:1} })`;
the `createdAt ?? now()` inside `setWithTTL` resolves the document's
`createdAt` with the call time as the nullish fallback (`importCreatedAt`). -/
def importState (raw : Option Json) (t : ℚ) : Option MindState :=
  match raw with
  | Option.none => Option.none
  | some j =>
    if jsFalsy j then Option.none
    else if !(isArr (getField j "nodes")) then Option.none
    else if !(isArr (getField j "edges")) then Option.none
    else
      some (setWithTTL t
        { version := 1,
          createdAt := importCreatedAt j t,
          updatedAt := t,
          expiresAt := getNumD j "expiresAt" 0,
          nodes := (match getField j "nodes" with
                    | some (.arr xs) => xs.map decodeNode
                    | _ => []),
          edges := (match getField j "edges" with
                    | some (.arr xs) => xs.map decodeEdge
                    | _ => []),
          selectedId := getStr j "selectedId",
          viewport := (match getField j "viewport" with
                       | some Json.null => ⟨0, 0, 1⟩
                       | some v => decodeViewport v
                       | Option.none => ⟨0, 0, 1⟩) })

/-- `doImport` (community.tsx:485-492): `importState` then `setState` on
success; on `null` the callback returns early and the state is untouched. -/
def doImport (raw : Option Json) (t : ℚ) (s : MindState) : MindState :=
  (importState raw t).getD s

/-! ## Graph operations -/

/-- `getNode(state, id?)` (community.tsx:164-167): `if (!id) return null`
rejects the absent and the empty id (both falsy), then the first node with
that id is found. -/
def getNode (s : MindState) (i : Option String) : Option MindNode :=
  match i with
  | Option.none => Option.none
  | some i => if i = "" then Option.none else s.nodes.find? (fun n => n.id == i)

/-- `centerOnNode(state, id)` (community.tsx:169-184) at call time `t`. -/
def centerOnNode (t : ℚ) (s : MindState) (i : String) : MindState :=
  match getNode s (some i) with
  | Option.none => s
  | some n =>
    { s with viewport := { s.viewport with x := 520 - n.x, y := 320 - n.y },
             selectedId := some i, updatedAt := t }

/-- `removeSelected` (community.tsx:422-434) at call time `t`: no-op on a
falsy `selectedId` and when `nodes.length === 1`; otherwise the node and its
incident edges are filtered out and the selection falls back
(`id === rootId ? nextNodes[0]?.id : rootId ?? nextNodes[0]?.id`). -/
def removeSelected (t : ℚ) (s : MindState) : MindState :=
  match s.selectedId with
  | Option.none => s
  | some i =>
    if i = "" then s
    else if s.nodes.length = 1 then s
    else
      let rootId := s.nodes.head?.map MindNode.id
      let nextNodes := s.nodes.filter (fun n => !(n.id == i))
      let nextEdges := s.edges.filter (fun e => !(e.from_ == i) && !(e.to_ == i))
      let nextSelected :=
        if rootId = some i then nextNodes.head?.map MindNode.id
        else
          match rootId with
          | some r => some r
          | Option.none => nextNodes.head?.map MindNode.id
      { s with nodes := nextNodes, edges := nextEdges,
               selectedId := nextSelected, updatedAt := t }

/-- `Partial<MindNode>` as passed to `updateSelected` by its call sites
(title / body / tone edits; position fields included for generality). -/
structure NodePatch where
  title : Option String
  body : Option String
  tone : Option NodeTone
  x : Option ℚ
  y : Option ℚ
deriving DecidableEq, Repr

/-- The spread `{ ...n, ...patch, updatedAt: now() }` (community.tsx:442). -/
def applyPatch (p : NodePatch) (t : ℚ) (n : MindNode) : MindNode :=
  { n with title := p.title.getD n.title, body := p.body.getD n.body,
           tone := p.tone.getD n.tone, x := p.x.getD n.x, y := p.y.getD n.y,
           updatedAt := t }

/-- `updateSelected(patch)` (community.tsx:436-447) at call time `t`:
early return on a falsy `selectedId`; otherwise every node whose id equals
the selection is patched and the state-level `updatedAt` is set to now. -/
def updateSelected (t : ℚ) (p : NodePatch) (s : MindState) : MindState :=
  match s.selectedId with
  | Option.none => s
  | some i =>
    if i = "" then s
    else
      { s with nodes := s.nodes.map (fun n => if n.id = i then applyPatch p t n else n),
               updatedAt := t }

/-- `connectToRoot(id)` (community.tsx:449-462) at call time `t`, with the
generated edge id `eid` (the impure `uid("e")`) as a parameter. -/
def connectToRoot (eid : String) (t : ℚ) (s : MindState) (i : String) : MindState :=
  match s.nodes.head? with
  | Option.none => s
  | some root =>
    if s.edges.any (fun e => e.from_ == root.id && e.to_ == i) then s
    else
      { s with edges := s.edges ++ [{ id := eid, from_ := root.id, to_ := i }],
               updatedAt := t }

/-! ## Viewport operations -/

/-- One wheel event as seen by `onWheel` (community.tsx:571-594): the scroll
delta and the cursor position relative to the canvas
(`mx = clientX - rect.left`, `my = clientY - rect.top`), plus the call time. -/
structure WheelEvent where
  deltaY : ℚ
  mx : ℚ
  my : ℚ
  t : ℚ

/-- `onWheel` (community.tsx:571-594): `delta = -deltaY`,
`factor = delta > 0 ? 1.06 : 0.94`, zoom clamped to `[0.65, 1.8]`, and the
translation re-solved so the world point under the cursor stays fixed. -/
def onWheel (e : WheelEvent) (s : MindState) : MindState :=
  let delta := -e.deltaY
  let factor : ℚ := if delta > 0 then 1.06 else 0.94
  let nextZoom := clamp (s.viewport.zoom * factor) 0.65 1.8
  let wx := (e.mx - s.viewport.x) / s.viewport.zoom
  let wy := (e.my - s.viewport.y) / s.viewport.zoom
  { s with viewport := { x := e.mx - wx * nextZoom, y := e.my - wy * nextZoom,
                         zoom := nextZoom },
           updatedAt := e.t }

/-- The `+` / `=` keyboard shortcut (community.tsx:514). -/
def kbZoomIn (t : ℚ) (s : MindState) : MindState :=
  { s with viewport := { s.viewport with zoom := clamp (s.viewport.zoom * 1.08) 0.65 1.8 },
           updatedAt := t }

/-- The `-` / `_` keyboard shortcut (community.tsx:515). -/
def kbZoomOut (t : ℚ) (s : MindState) : MindState :=
  { s with viewport := { s.viewport with zoom := clamp (s.viewport.zoom * 0.92) 0.65 1.8 },
           updatedAt := t }

/-- `defaultState(seedTitle?)` (community.tsx:106-132), with the impure
`uid("root")` and the already-sanitized title supplied by the caller
(`sanitizeTitle` is a pure string cleanup that no claim depends on). -/
def defaultState (rid : String) (title : String) (t : ℚ) : MindState :=
  { version := 1, createdAt := t, updatedAt := t, expiresAt := t + TTL_MS,
    nodes := [{ id := rid, title := title, body := "", tone := .none,
                x := 520, y := 320, createdAt := t, updatedAt := t }],
    edges := [], selectedId := some rid, viewport := ⟨0, 0, 1⟩ }

/-! ## autoArrange (community.tsx:135-162) -/

/-- The ids directly connected from the root:
`new Set(state.edges.filter(e => e.from === root.id).map(e => e.to))`
(community.tsx:140), kept as a list (only membership is used). -/
def rootChildIds (st : MindState) (root : MindNode) : List String :=
  (st.edges.filter (fun e => e.from_ == root.id)).map MindEdge.to_

/-- `rootChildren` (community.tsx:141): the non-root nodes the root points to,
in their original sequence order. -/
def rootChildren (st : MindState) (root : MindNode) (others : List MindNode) :
    List MindNode :=
  others.filter (fun n => (rootChildIds st root).contains n.id)

/-- `rest` (community.tsx:142): the remaining non-root nodes, in order. -/
def restNodes (st : MindState) (root : MindNode) (others : List MindNode) :
    List MindNode :=
  others.filter (fun n => !((rootChildIds st root).contains n.id))

/-- The body of the `placeRing` loop (community.tsx:150-155) at index `i`:
`a = startAngle + i * (PI*2) / k`, `x = root.x + cos(a) * radius`,
`y = root.y + sin(a) * radius`, `updatedAt = now()`. -/
def placeNode (cosf sinf : ℚ → ℚ) (root : MindNode) (pi radius startAngle t k i : ℚ)
    (n : MindNode) : MindNode :=
  { n with x := root.x + cosf (startAngle + (i * (pi * 2)) / k) * radius,
           y := root.y + sinf (startAngle + (i * (pi * 2)) / k) * radius,
           updatedAt := t }

/-- The `placeRing` for-loop (community.tsx:148-156) with the precomputed
`k = Math.max(arr.length, 1)` and the running index. -/
def placeRing (cosf sinf : ℚ → ℚ) (root : MindNode) (pi radius startAngle t k : ℚ) :
    ℕ → List MindNode → List MindNode
  | _, [] => []
  | i, n :: rest =>
    placeNode cosf sinf root pi radius startAngle t k (i : ℚ) n ::
      placeRing cosf sinf root pi radius startAngle t k (i + 1) rest

/-- `autoArrange(state)` (community.tsx:135-162) at call time `t`, with
`Math.cos` / `Math.sin` / `Math.PI` as the parameters `cosf` / `sinf` / `pi`:
ring one (the root's direct children) at radius 210 starting at `-PI/2`,
ring two (the rest) at radius 370 starting at `-PI/2 + 0.35`; the root stays
first and unmoved. -/
def autoArrange (cosf sinf : ℚ → ℚ) (pi t : ℚ) (st : MindState) : MindState :=
  match st.nodes with
  | [] => st
  | root :: others =>
    { st with
      nodes := root ::
        (placeRing cosf sinf root pi 210 (-(pi / 2)) t
            (max ((rootChildren st root others).length : ℚ) 1) 0
            (rootChildren st root others)
          ++ placeRing cosf sinf root pi 370 (-(pi / 2) + 0.35) t
            (max ((restNodes st root others).length : ℚ) 1) 0
            (restNodes st root others)),
      updatedAt := t }


/-! ## Sample data for concrete evaluations -/

/-- A concrete root node. -/
def nA : MindNode :=
  { id := "a", title := "Root", body := "", tone := .none,
    x := 520, y := 320, createdAt := 0, updatedAt := 0 }

/-- A concrete child node. -/
def nB : MindNode :=
  { id := "b", title := "Child", body := "note", tone := .good,
    x := 700, y := 300, createdAt := 0, updatedAt := 0 }

/-- A concrete edge from the root to the child. -/
def eAB : MindEdge := { id := "e1", from_ := "a", to_ := "b" }

/-- A concrete two-node state with the child selected. -/
def sAB : MindState :=
  { version := 1, createdAt := 0, updatedAt := 0, expiresAt := TTL_MS,
    nodes := [nA, nB], edges := [eAB], selectedId := some "b",
    viewport := ⟨0, 0, 1⟩ }

/-! ## C7 — wheel zoom keeps the cursor's world point fixed -/

/-- C7: for every wheel event, with the old viewport `(x, y, zoom)` and the
cursor at canvas position `(mx, my)`, the world point
`w = ((mx − x)/zoom, (my − y)/zoom)` satisfies
`w · zoom' + translation' = (mx, my)` for the new viewport produced by
`onWheel`, exactly; and the new zoom is the clamped
`zoom * (deltaY < 0 ? 1.06 : 0.94)`. -/
theorem onWheel_cursor_fixed (e : WheelEvent) (s : MindState) :
    ((e.mx - s.viewport.x) / s.viewport.zoom) * (onWheel e s).viewport.zoom
        + (onWheel e s).viewport.x = e.mx
  ∧ ((e.my - s.viewport.y) / s.viewport.zoom) * (onWheel e s).viewport.zoom
        + (onWheel e s).viewport.y = e.my
  ∧ (onWheel e s).viewport.zoom
      = clamp (s.viewport.zoom * (if 0 < -e.deltaY then 1.06 else 0.94)) 0.65 1.8 := by
  refine ⟨?_, ?_, rfl⟩ <;> simp only [onWheel] <;> ring

/-! ## C8 — connecting to the root is idempotent -/

/-- C8: `connectToRoot` is idempotent: a second call with the same target id
returns the state of the first call unchanged (so the edge set is the same
as after one call), and when an edge with the same `(from, to)` pair already
exists the call is a no-op. -/
theorem connectToRoot_idempotent (eid1 eid2 : String) (t1 t2 : ℚ) (s : MindState)
    (i : String) :
    connectToRoot eid2 t2 (connectToRoot eid1 t1 s i) i = connectToRoot eid1 t1 s i
  ∧ (∀ root, s.nodes.head? = some root →
      s.edges.any (fun e => e.from_ == root.id && e.to_ == i) = true →
      connectToRoot eid1 t1 s i = s) := by
  constructor
  · cases hh : s.nodes.head? with
    | none =>
      have h1 : connectToRoot eid1 t1 s i = s := by simp [connectToRoot, hh]
      rw [h1]; simp [connectToRoot, hh]
    | some root =>
      by_cases hex : s.edges.any (fun e => e.from_ == root.id && e.to_ == i) = true
      · have h1 : connectToRoot eid1 t1 s i = s := by simp [connectToRoot, hh, hex]
        rw [h1]; simp [connectToRoot, hh, hex]
      · have h1 : connectToRoot eid1 t1 s i =
            { s with edges := s.edges ++ [{ id := eid1, from_ := root.id, to_ := i }],
                     updatedAt := t1 } := by
          simp [connectToRoot, hh, hex]
        rw [h1]
        simp [connectToRoot, hh, List.any_append]
  · intro root hh hex
    simp [connectToRoot, hh, hex]

/-- C8 witness: connecting the already-linked node `b` of the concrete state
`sAB` is a no-op. -/
theorem connectToRoot_idempotent_witness : connectToRoot "e9" 5 sAB "b" = sAB :=
  (connectToRoot_idempotent "e9" "e10" 5 6 sAB "b").2 nA (by decide) (by decide)

/-! ## C10 — centerOnNode frame conditions -/

/-- C10: when the id resolves, `centerOnNode` changes only the viewport
translation (to `(520 − n.x, 320 − n.y)`), the selection and the state
`updatedAt`, keeping the zoom, the nodes and the edges; when the id does not
resolve, the state is returned entirely unchanged. -/
theorem centerOnNode_frame (t : ℚ) (s : MindState) (i : String) :
    (getNode s (some i) = Option.none → centerOnNode t s i = s)
  ∧ (∀ n, getNode s (some i) = some n →
      centerOnNode t s i =
        { s with viewport := { x := 520 - n.x, y := 320 - n.y, zoom := s.viewport.zoom },
                 selectedId := some i, updatedAt := t }) := by
  constructor
  · intro h; simp [centerOnNode, h]
  · intro n h; simp [centerOnNode, h]

/-- C10 witness: centering on the concrete child `b` of `sAB`. -/
theorem centerOnNode_frame_witness :
    centerOnNode 7 sAB "b" =
      { sAB with viewport := { x := 520 - nB.x, y := 320 - nB.y, zoom := sAB.viewport.zoom },
                 selectedId := some "b", updatedAt := 7 } :=
  (centerOnNode_frame 7 sAB "b").2 nB (by decide)


/-! ## C9 — updateSelected on a non-resolving id -/

/-- A concrete state whose selection does not resolve to any live node. -/
def sGhost : MindState :=
  { version := 1, createdAt := 0, updatedAt := 0, expiresAt := TTL_MS,
    nodes := [nA], edges := [], selectedId := some "ghost",
    viewport := ⟨0, 0, 1⟩ }

/-- The empty patch (no fields to merge). -/
def emptyPatch : NodePatch :=
  ⟨Option.none, Option.none, Option.none, Option.none, Option.none⟩

/-- C9 counterexample: with the selection set to the dangling id `"ghost"`,
`updateSelected` at time 5 is not a no-op — the state-level `updatedAt`
is still refreshed (from 0 to 5), so the resulting state differs. -/
theorem updateSelected_not_noop : updateSelected 5 emptyPatch sGhost ≠ sGhost := by
  decide

/-- C9 amended: with an absent `selectedId` the call is a full no-op; with a
non-empty `selectedId` that resolves to no live node, the nodes, edges,
selection and viewport are unchanged but the state-level `updatedAt` is
still refreshed to the call time; when the id resolves, the partial fields
are merged into the matching node (its `updatedAt` bumped) and every other
node, the edges, selection and viewport are unchanged. -/
theorem updateSelected_spec (t : ℚ) (p : NodePatch) (s : MindState) :
    (s.selectedId = Option.none → updateSelected t p s = s)
  ∧ (∀ i, s.selectedId = some i → i ≠ "" → (∀ n ∈ s.nodes, n.id ≠ i) →
      updateSelected t p s = { s with updatedAt := t })
  ∧ (∀ i, s.selectedId = some i → i ≠ "" →
      (updateSelected t p s).nodes
          = s.nodes.map (fun n => if n.id = i then applyPatch p t n else n)
        ∧ (updateSelected t p s).edges = s.edges
        ∧ (updateSelected t p s).selectedId = some i
        ∧ (updateSelected t p s).viewport = s.viewport
        ∧ (updateSelected t p s).updatedAt = t) := by
  refine ⟨fun h => by simp [updateSelected, h], ?_, ?_⟩
  · intro i hi hne hnr
    have hmap : s.nodes.map (fun n => if n.id = i then applyPatch p t n else n)
        = s.nodes := by
      have h1 : s.nodes.map (fun n => if n.id = i then applyPatch p t n else n)
          = s.nodes.map id :=
        List.map_congr_left (fun n hn => by simp [hnr n hn])
      rw [h1, List.map_id]
    simp [updateSelected, hi, hne, hmap]
  · intro i hi hne
    simp [updateSelected, hi, hne]

/-- C9 witness for the amended claim: on the concrete state `sGhost` the
dangling selection leaves everything but `updatedAt` unchanged. -/
theorem updateSelected_spec_witness :
    updateSelected 5 emptyPatch sGhost = { sGhost with updatedAt := 5 } :=
  (updateSelected_spec 5 emptyPatch sGhost).2.1 "ghost" rfl (by decide) (by decide)

/-! ## C5 — TTL on import -/

/-- An importable document carrying `createdAt = 0`. -/
def docC5 : Json :=
  .obj [("nodes", .arr []), ("edges", .arr []), ("createdAt", .num 0)]

/-- C5 counterexample: importing a document that carries `createdAt = 0` at
time 1000 yields `expiresAt = 0 + TTL`, not `1000 + TTL`: the TTL window is
anchored to the carried `createdAt`, not to the import time. -/
theorem importState_ttl_not_refreshed :
    (importState (some docC5) 1000).map MindState.expiresAt = some TTL_MS
  ∧ TTL_MS ≠ 1000 + TTL_MS := by
  constructor
  · simp [importState, docC5, getNum, getNumD, getStr, getField, jsFalsy, isArr,
          setWithTTL, importCreatedAt, List.lookup]
  · norm_num [TTL_MS]

/-- C5 amended: on a successful import, `version` is normalized to 1 and
`updatedAt` is set to the import time; when the document carries a numeric
`createdAt`, `expiresAt` equals that carried `createdAt` plus the fixed
24-hour TTL — the window stays anchored to the carried creation time rather
than being refreshed to the import time — and only when the document's
`createdAt` is absent or `null` does the import time take its place
(a non-numeric, non-null `createdAt` flows through JavaScript coercion and
is outside this statement). -/
theorem importState_ttl_anchored (j : Json) (t : ℚ)
    (hf : jsFalsy j = false)
    (hn : isArr (getField j "nodes") = true)
    (he : isArr (getField j "edges") = true) :
    (importState (some j) t).map MindState.version = some 1
  ∧ (importState (some j) t).map MindState.updatedAt = some t
  ∧ (∀ q, getField j "createdAt" = some (Json.num q) →
      (importState (some j) t).map MindState.expiresAt = some (q + TTL_MS))
  ∧ ((getField j "createdAt" = Option.none ∨ getField j "createdAt" = some Json.null) →
      (importState (some j) t).map MindState.expiresAt = some (t + TTL_MS)) := by
  refine ⟨?_, ?_, ?_, ?_⟩
  · simp [importState, hf, hn, he, setWithTTL]
  · simp [importState, hf, hn, he, setWithTTL]
  · intro q hq
    simp [importState, hf, hn, he, setWithTTL, importCreatedAt, hq]
  · intro hc
    rcases hc with hc | hc <;>
      simp [importState, hf, hn, he, setWithTTL, importCreatedAt, hc]

/-- C5 witness for the amended claim, at the concrete document `docC5`
(carried numeric `createdAt = 0`, import at time 1000). -/
theorem importState_ttl_anchored_witness :
    (importState (some docC5) 1000).map MindState.version = some 1
  ∧ (importState (some docC5) 1000).map MindState.updatedAt = some 1000
  ∧ (importState (some docC5) 1000).map MindState.expiresAt = some (0 + TTL_MS) := by
  have h := importState_ttl_anchored docC5 1000 (by decide) (by decide) (by decide)
  exact ⟨h.1, h.2.1, h.2.2.1 0 rfl⟩

/-! ## C4 — zoom clamping -/

/-- An importable document whose viewport zoom is far outside `[0.65, 1.8]`. -/
def docC4 : Json :=
  .obj [("nodes", .arr []), ("edges", .arr []),
        ("viewport", .obj [("x", .num 0), ("y", .num 0), ("zoom", .num 100)])]

/-- C4 counterexample: `importState` does not clamp the imported zoom — a
document with `viewport.zoom = 100` imports successfully and the resulting
state's zoom is 100, outside `[0.65, 1.8]`. -/
theorem importState_zoom_unclamped :
    (importState (some docC4) 0).map (fun st => st.viewport.zoom) = some 100
  ∧ ¬ ((100 : ℚ) ≤ 1.8) := by
  constructor
  · simp [importState, docC4, getNum, getNumD, getStr, getField, jsFalsy, isArr,
          setWithTTL, importCreatedAt, decodeViewport, List.lookup]
  · norm_num

/-- `clamp n 0.65 1.8` always lands in `[0.65, 1.8]`. -/
theorem clamp_zoom_bounds (n : ℚ) : 0.65 ≤ clamp n 0.65 1.8 ∧ clamp n 0.65 1.8 ≤ 1.8 := by
  unfold clamp
  refine ⟨le_max_left _ _, max_le (by norm_num) (min_le_left _ _)⟩

/-- After any wheel event the zoom is in `[0.65, 1.8]`. -/
theorem onWheel_zoom_bounds (e : WheelEvent) (s : MindState) :
    0.65 ≤ (onWheel e s).viewport.zoom ∧ (onWheel e s).viewport.zoom ≤ 1.8 := by
  simp only [onWheel]
  exact clamp_zoom_bounds _

/-- Folding any list of wheel events over a state whose zoom is in bounds
keeps the zoom in bounds. -/
theorem wheelFold_zoom_bounds (events : List WheelEvent) (s : MindState)
    (h : 0.65 ≤ s.viewport.zoom ∧ s.viewport.zoom ≤ 1.8) :
    0.65 ≤ (events.foldl (fun st e => onWheel e st) s).viewport.zoom
  ∧ (events.foldl (fun st e => onWheel e st) s).viewport.zoom ≤ 1.8 := by
  induction events generalizing s with
  | nil => exact h
  | cons e es ih => exact ih _ (onWheel_zoom_bounds e s)

/-- C4 amended: the wheel and keyboard zoom operations clamp the zoom into
`[0.65, 1.8]`, and for any sequence of wheel events starting from a default
state the zoom always stays within the bounds (import, by contrast, carries
the document's zoom verbatim — see the counterexample). -/
theorem zoom_always_clamped (rid title : String) (t0 : ℚ) (events : List WheelEvent) :
    (0.65 ≤ (events.foldl (fun st e => onWheel e st) (defaultState rid title t0)).viewport.zoom
      ∧ (events.foldl (fun st e => onWheel e st) (defaultState rid title t0)).viewport.zoom ≤ 1.8)
  ∧ (∀ e s, 0.65 ≤ (onWheel e s).viewport.zoom ∧ (onWheel e s).viewport.zoom ≤ 1.8)
  ∧ (∀ t s, 0.65 ≤ (kbZoomIn t s).viewport.zoom ∧ (kbZoomIn t s).viewport.zoom ≤ 1.8)
  ∧ (∀ t s, 0.65 ≤ (kbZoomOut t s).viewport.zoom ∧ (kbZoomOut t s).viewport.zoom ≤ 1.8) := by
  refine ⟨wheelFold_zoom_bounds events _ ⟨by norm_num [defaultState], by norm_num [defaultState]⟩,
          onWheel_zoom_bounds, ?_, ?_⟩
  · intro t s; simp only [kbZoomIn]; exact clamp_zoom_bounds _
  · intro t s; simp only [kbZoomOut]; exact clamp_zoom_bounds _

/-! ## C2 — import fails closed -/

/-- C2: `importState` returns `none` whenever the text does not parse as
JSON (`raw = none`), or the parsed document is missing the `nodes` or the
`edges` field or either is not an array; and whenever it returns `none`,
the import command leaves the state exactly as it was. -/
theorem importState_fails_closed (raw : Option Json) (t : ℚ) (s : MindState) :
    ((raw = Option.none
        ∨ ∀ j, raw = some j →
            (isArr (getField j "nodes") = false ∨ isArr (getField j "edges") = false)) →
      importState raw t = Option.none)
  ∧ (importState raw t = Option.none → doImport raw t s = s) := by
  constructor
  · intro h
    cases raw with
    | none => rfl
    | some j =>
      rcases h with h | h
      · exact absurd h (by simp)
      · rcases h j rfl with hn | hn
        · simp [importState, hn]
        · simp [importState, hn]
  · intro h
    simp [doImport, h]

/-- A document with a well-formed `nodes` list but no `edges` field. -/
def docNoEdges : Json := .obj [("nodes", .arr [])]

/-- C2 witness: the concrete malformed document (missing `edges`) is
rejected and the state `sAB` is untouched by the import command. -/
theorem importState_fails_closed_witness :
    importState (some docNoEdges) 7 = Option.none
  ∧ doImport (some docNoEdges) 7 sAB = sAB := by
  have h := importState_fails_closed (some docNoEdges) 7 sAB
  have h1 : importState (some docNoEdges) 7 = Option.none :=
    h.1 (Or.inr (fun j hj => by cases hj; exact Or.inr (by decide)))
  exact ⟨h1, h.2 h1⟩


/-! ## C3 — the root survives every delete sequence -/

/-- The well-formedness the spec's data model gives every `GraphState`:
at least the root node exists (index 0 is the root) and node ids are
unique. -/
def GoodIds (s : MindState) : Prop :=
  s.nodes ≠ [] ∧ (s.nodes.map MindNode.id).Nodup

/-- With at least two nodes and duplicate-free ids, filtering one id out
never empties the node list. -/
theorem filter_id_ne_nil (l : List MindNode) (i : String)
    (hlen : l.length ≠ 1) (hne : l ≠ []) (hnd : (l.map MindNode.id).Nodup) :
    l.filter (fun n => !(n.id == i)) ≠ [] := by
  match l with
  | [] => exact absurd rfl hne
  | [a] => exact absurd rfl hlen
  | a :: b :: l' =>
    intro hcontra
    rw [List.filter_eq_nil_iff] at hcontra
    have ha := hcontra a (by simp)
    have hb := hcontra b (by simp)
    simp at ha hb
    rw [List.map_cons, List.map_cons, List.nodup_cons] at hnd
    exact hnd.1 (by simp [ha, hb])

/-- `removeSelected` preserves nonemptiness and id-uniqueness. -/
theorem removeSelected_goodIds (t : ℚ) (s : MindState) (h : GoodIds s) :
    GoodIds (removeSelected t s) := by
  obtain ⟨hne, hnd⟩ := h
  cases hsel : s.selectedId with
  | none => simpa [removeSelected, hsel] using ⟨hne, hnd⟩
  | some i =>
    by_cases hi : i = ""
    · simpa [removeSelected, hsel, hi] using ⟨hne, hnd⟩
    · by_cases hlen : s.nodes.length = 1
      · simpa [removeSelected, hsel, hi, hlen] using ⟨hne, hnd⟩
      · refine ⟨?_, ?_⟩
        · simpa [removeSelected, hsel, hi, hlen] using
            filter_id_ne_nil s.nodes i hlen hne hnd
        · have hsub : ((s.nodes.filter (fun n => !(n.id == i))).map MindNode.id).Sublist
              (s.nodes.map MindNode.id) :=
            List.Sublist.map MindNode.id (List.filter_sublist s.nodes)
          simpa [removeSelected, hsel, hi, hlen] using List.Nodup.sublist hsub hnd

/-- C3: starting from any state with a nonempty, duplicate-free node list,
no sequence of `removeSelected` calls ever empties the node list; deleting
with exactly one node present is a no-op regardless of the selection; and
when a delete goes through, the removed node's incident edges go with it and
the selection falls back to the new first node if the root was removed,
otherwise to the root. -/
theorem removeSelected_root_survives (s : MindState)
    (hne : s.nodes ≠ []) (hnd : (s.nodes.map MindNode.id).Nodup) :
    (∀ ops : List ℚ, (ops.foldl (fun st t => removeSelected t st) s).nodes ≠ [])
  ∧ (s.nodes.length = 1 → ∀ t, removeSelected t s = s)
  ∧ (∀ t i, s.selectedId = some i → i ≠ "" → s.nodes.length ≠ 1 →
      (removeSelected t s).nodes = s.nodes.filter (fun n => !(n.id == i))
      ∧ (removeSelected t s).edges
          = s.edges.filter (fun e => !(e.from_ == i) && !(e.to_ == i))
      ∧ (removeSelected t s).selectedId =
          (if s.nodes.head?.map MindNode.id = some i
           then (s.nodes.filter (fun n => !(n.id == i))).head?.map MindNode.id
           else s.nodes.head?.map MindNode.id)) := by
  refine ⟨?_, ?_, ?_⟩
  · have key : ∀ (ops : List ℚ) (s' : MindState), GoodIds s' →
        GoodIds (ops.foldl (fun st t => removeSelected t st) s') := by
      intro ops
      induction ops with
      | nil => exact fun s' h => h
      | cons t ts ih => exact fun s' h => ih _ (removeSelected_goodIds t s' h)
    exact fun ops => (key ops s ⟨hne, hnd⟩).1
  · intro hlen t
    cases hsel : s.selectedId with
    | none => simp [removeSelected, hsel]
    | some i => simp [removeSelected, hsel, hlen]
  · intro t i hsel hi hlen
    obtain ⟨a, l, hcons⟩ := List.exists_cons_of_ne_nil hne
    refine ⟨by simp [removeSelected, hsel, hi, hlen],
            by simp [removeSelected, hsel, hi, hlen], ?_⟩
    have hl : l ≠ [] := by
      intro h0
      exact hlen (by rw [hcons, h0]; rfl)
    rw [hcons]
    by_cases hroot : a.id = i
    · simp [removeSelected, hsel, hi, hlen, hcons, hroot, hl]
    · simp [removeSelected, hsel, hi, hlen, hcons, hroot, hl]

/-- C3 witness: one delete on the concrete two-node state `sAB` leaves the
graph nonempty. -/
theorem removeSelected_root_survives_witness :
    ([(3 : ℚ)].foldl (fun st t => removeSelected t st) sAB).nodes ≠ [] :=
  (removeSelected_root_survives sAB (by decide) (by decide)).1 [3]


/-! ## C6 — autoArrange layout -/

/-- `placeRing` preserves the length of its input. -/
theorem placeRing_length (cosf sinf : ℚ → ℚ) (root : MindNode)
    (pi radius startAngle t k : ℚ) (l : List MindNode) :
    ∀ i : ℕ, (placeRing cosf sinf root pi radius startAngle t k i l).length = l.length := by
  induction l with
  | nil => intro i; rfl
  | cons n rest ih => intro i; simp [placeRing, ih (i + 1)]

/-- Element `j` of a ring placed starting at running index `i` is the input's
element `j` placed at angle index `i + j`. -/
theorem placeRing_getElem (cosf sinf : ℚ → ℚ) (root : MindNode)
    (pi radius startAngle t k : ℚ) (l : List MindNode) :
    ∀ i j : ℕ, (placeRing cosf sinf root pi radius startAngle t k i l)[j]? =
      (l[j]?).map (placeNode cosf sinf root pi radius startAngle t k ((i + j : ℕ) : ℚ)) := by
  induction l with
  | nil => intro i j; simp [placeRing]
  | cons n rest ih =>
    intro i j
    cases j with
    | zero => simp [placeRing]
    | succ j' =>
      have harith : i + 1 + j' = i + (j' + 1) := by omega
      simp only [placeRing, List.getElem?_cons_succ, ih (i + 1) j', harith]

/-- The positions produced by `placeRing` do not depend on the call time. -/
theorem placeRing_pos (cosf sinf : ℚ → ℚ) (root : MindNode)
    (pi radius startAngle t1 t2 k : ℚ) (l : List MindNode) :
    ∀ i : ℕ, (placeRing cosf sinf root pi radius startAngle t1 k i l).map (fun n => (n.x, n.y))
      = (placeRing cosf sinf root pi radius startAngle t2 k i l).map (fun n => (n.x, n.y)) := by
  induction l with
  | nil => intro i; rfl
  | cons n rest ih => intro i; simp [placeRing, placeNode, ih (i + 1)]

/-- C6: `autoArrange` keeps the root first and unmoved; the root's direct
children are placed, in their original order, on the radius-210 circle at
angles `−π/2 + i·2π/groupSize`; the remaining non-root nodes follow, in
order, on the radius-370 circle with the start angle offset by 0.35; and
the positions are deterministic — they do not depend on the call time, and
the function is pure, so the same graph always yields the same layout. -/
theorem autoArrange_spec (cosf sinf : ℚ → ℚ) (pi t : ℚ) (st : MindState)
    (root : MindNode) (others : List MindNode) (h : st.nodes = root :: others) :
    (autoArrange cosf sinf pi t st).nodes.head? = some root
  ∧ (∀ i : ℕ, i < (rootChildren st root others).length →
      (autoArrange cosf sinf pi t st).nodes[i + 1]? =
        ((rootChildren st root others)[i]?).map (fun n =>
          { n with
            x := root.x + cosf (-(pi / 2)
                  + ((i : ℚ) * (pi * 2)) / ((rootChildren st root others).length : ℚ)) * 210,
            y := root.y + sinf (-(pi / 2)
                  + ((i : ℚ) * (pi * 2)) / ((rootChildren st root others).length : ℚ)) * 210,
            updatedAt := t }))
  ∧ (∀ i : ℕ, i < (restNodes st root others).length →
      (autoArrange cosf sinf pi t st).nodes[(rootChildren st root others).length + i + 1]? =
        ((restNodes st root others)[i]?).map (fun n =>
          { n with
            x := root.x + cosf (-(pi / 2) + 0.35
                  + ((i : ℚ) * (pi * 2)) / ((restNodes st root others).length : ℚ)) * 370,
            y := root.y + sinf (-(pi / 2) + 0.35
                  + ((i : ℚ) * (pi * 2)) / ((restNodes st root others).length : ℚ)) * 370,
            updatedAt := t }))
  ∧ (∀ t2 : ℚ, (autoArrange cosf sinf pi t2 st).nodes.map (fun n => (n.x, n.y))
      = (autoArrange cosf sinf pi t st).nodes.map (fun n => (n.x, n.y))) := by
  have hnodes : ∀ t' : ℚ, (autoArrange cosf sinf pi t' st).nodes =
      root ::
        (placeRing cosf sinf root pi 210 (-(pi / 2)) t'
            (max ((rootChildren st root others).length : ℚ) 1) 0
            (rootChildren st root others)
          ++ placeRing cosf sinf root pi 370 (-(pi / 2) + 0.35) t'
            (max ((restNodes st root others).length : ℚ) 1) 0
            (restNodes st root others)) := by
    intro t'
    simp [autoArrange, h]
  refine ⟨by rw [hnodes]; rfl, ?_, ?_, ?_⟩
  · intro i hi
    have hmax : max ((rootChildren st root others).length : ℚ) 1
        = ((rootChildren st root others).length : ℚ) :=
      max_eq_left (by exact_mod_cast Nat.one_le_iff_ne_zero.mpr (by omega))
    rw [hnodes, List.getElem?_cons_succ, List.getElem?_append,
        if_pos (by rw [placeRing_length]; exact hi),
        placeRing_getElem, hmax]
    cases hx : (rootChildren st root others)[i]? with
    | none => rfl
    | some n => simp [placeNode]
  · intro i hi
    have hmax : max ((restNodes st root others).length : ℚ) 1
        = ((restNodes st root others).length : ℚ) :=
      max_eq_left (by exact_mod_cast Nat.one_le_iff_ne_zero.mpr (by omega))
    have hlen1 : (placeRing cosf sinf root pi 210 (-(pi / 2)) t
        (max ((rootChildren st root others).length : ℚ) 1) 0
        (rootChildren st root others)).length = (rootChildren st root others).length :=
      placeRing_length cosf sinf root pi 210 (-(pi / 2)) t
        (max ((rootChildren st root others).length : ℚ) 1) (rootChildren st root others) 0
    rw [hnodes, List.getElem?_cons_succ,
        List.getElem?_append_right (by rw [hlen1]; omega), hlen1]
    have hidx : (rootChildren st root others).length + i
        - (rootChildren st root others).length = i := by omega
    rw [hidx, placeRing_getElem, hmax]
    cases hx : (restNodes st root others)[i]? with
    | none => rfl
    | some n => simp [placeNode]
  · intro t2
    rw [hnodes t2, hnodes t]
    simp only [List.map_cons, List.map_append]
    rw [placeRing_pos cosf sinf root pi 210 (-(pi / 2)) t2 t,
        placeRing_pos cosf sinf root pi 370 (-(pi / 2) + 0.35) t2 t]

/-- C6 witness: on the concrete state `sAB` (root `a`, child `b` linked from
the root), `autoArrange` keeps the root first. -/
theorem autoArrange_spec_witness :
    (autoArrange (fun _ => 0) (fun _ => 1) 3 9 sAB).nodes.head? = some nA :=
  (autoArrange_spec (fun _ => 0) (fun _ => 1) 3 9 sAB nA [nB] rfl).1


/-! ## C1 — export/import round trip -/

/-- Tone strings decode back to the tone they encode. -/
theorem decodeTone_encodeTone (tn : NodeTone) : decodeTone (encodeTone tn) = tn := by
  cases tn <;> rfl

/-- A serialized node decodes back to itself. -/
theorem decodeNode_encodeNode (n : MindNode) : decodeNode (encodeNode n) = n := by
  cases n
  simp [decodeNode, encodeNode, getStrD, getStr, getNumD, getNum, getField,
        List.lookup, decodeTone_encodeTone]

/-- A serialized edge decodes back to itself. -/
theorem decodeEdge_encodeEdge (e : MindEdge) : decodeEdge (encodeEdge e) = e := by
  cases e
  simp [decodeEdge, encodeEdge, getStrD, getStr, getField, List.lookup]

/-- A serialized viewport decodes back to itself. -/
theorem decodeViewport_encodeViewport (v : Viewport) :
    decodeViewport (encodeViewport v) = v := by
  cases v
  simp [decodeViewport, encodeViewport, getNumD, getNum, getField, List.lookup]

/-- A serialized node list decodes back to itself. -/
theorem map_decodeNode_encodeNode (ns : List MindNode) :
    ns.map (decodeNode ∘ encodeNode) = ns := by
  induction ns with
  | nil => rfl
  | cons n rest ih => simp [decodeNode_encodeNode, ih]

/-- A serialized edge list decodes back to itself. -/
theorem map_decodeEdge_encodeEdge (es : List MindEdge) :
    es.map (decodeEdge ∘ encodeEdge) = es := by
  induction es with
  | nil => rfl
  | cons e rest ih => simp [decodeEdge_encodeEdge, ih]

/-- The validity invariants the spec attaches to a `GraphState`: current
schema version, `expiresAt = createdAt + TTL`, a root node (index 0) exists,
node ids are unique, and the zoom is within `[0.65, 1.8]`. -/
def ValidState (s : MindState) : Prop :=
  s.version = 1 ∧ s.expiresAt = s.createdAt + TTL_MS ∧ s.nodes ≠ []
  ∧ (s.nodes.map MindNode.id).Nodup
  ∧ 0.65 ≤ s.viewport.zoom ∧ s.viewport.zoom ≤ 1.8

/-- C1: for every valid state, importing the export succeeds and returns the
state with its structural content — nodes (ids, titles, bodies, tones,
positions), edges, selection and viewport — identical; only `updatedAt` is
refreshed to the import time (and `expiresAt` is recomputed to the value it
already had). -/
theorem import_export_roundtrip (s : MindState) (t : ℚ) (hv : ValidState s) :
    importState (some (exportState s)) t = some { s with updatedAt := t } := by
  obtain ⟨h1, h2, -, -, -, -⟩ := hv
  cases hsel : s.selectedId with
  | none =>
    simp [importState, exportState, jsFalsy, isArr, getField, getNum, getStr,
          getNumD, List.lookup, setWithTTL, importCreatedAt, hsel, h1, h2.symm,
          encodeViewport, decodeViewport, map_decodeNode_encodeNode,
          map_decodeEdge_encodeEdge]
  | some i =>
    simp [importState, exportState, jsFalsy, isArr, getField, getNum, getStr,
          getNumD, List.lookup, setWithTTL, importCreatedAt, hsel, h1, h2.symm,
          encodeViewport, decodeViewport, map_decodeNode_encodeNode,
          map_decodeEdge_encodeEdge]

/-- C1 witness: the concrete valid state `sAB` round-trips at import time 42. -/
theorem import_export_roundtrip_witness :
    importState (some (exportState sAB)) 42 = some { sAB with updatedAt := 42 } :=
  import_export_roundtrip sAB 42
    ⟨rfl, by norm_num [sAB, TTL_MS], by decide, by decide,
     by norm_num [sAB], by norm_num [sAB]⟩

end FinanceLab
